import Mathlib

/-!
Verification development for a minimal Whitted-style ray tracer
(`RT_trace_ray` / `RT_render_scene` from simpleRT_plugin.py).

The host geometry engine (Blender's `Scene.ray_cast`) is an external
intersection oracle; we model it as a function field of `Scene`.
Square roots (used by `Vector.normalized`, `np.linalg.norm` and the
transmission branch's `sqrt`) come from external float libraries; the
embedding takes a square-root function `sq : A -> A` as an explicit
parameter over a linear ordered field, so every definition stays
computable and claims can be evaluated at rational inputs.
-/

namespace SimpleRT

/-- Three-component vector, the embedding of mathutils `Vector` /
three-element numpy arrays. -/
structure V3 (A : Type) where
  x : A
  y : A
  z : A
deriving DecidableEq, Repr

variable {A : Type} [LinearOrderedField A]

namespace V3

def add (a b : V3 A) : V3 A := ⟨a.x + b.x, a.y + b.y, a.z + b.z⟩

instance : Add (V3 A) := ⟨add⟩

def neg (a : V3 A) : V3 A := ⟨-a.x, -a.y, -a.z⟩

instance : Neg (V3 A) := ⟨neg⟩

def sub (a b : V3 A) : V3 A := ⟨a.x - b.x, a.y - b.y, a.z - b.z⟩

instance : Sub (V3 A) := ⟨sub⟩

/-- Componentwise product: mathutils `Vector * Vector` and numpy
elementwise `*`. -/
def mul (a b : V3 A) : V3 A := ⟨a.x * b.x, a.y * b.y, a.z * b.z⟩

instance : Mul (V3 A) := ⟨mul⟩

instance : Zero (V3 A) := ⟨⟨0, 0, 0⟩⟩

/-- Scalar times vector. -/
def smul (t : A) (a : V3 A) : V3 A := ⟨t * a.x, t * a.y, t * a.z⟩

instance : SMul A (V3 A) := ⟨smul⟩

/-- Vector divided by a scalar (numpy `v / s`, mathutils `v / s`). -/
def divScalar (a : V3 A) (t : A) : V3 A := ⟨a.x / t, a.y / t, a.z / t⟩

/-- Dot product. -/
def dot (a b : V3 A) : A := a.x * b.x + a.y * b.y + a.z * b.z

/-- mathutils `Vector.length_squared`. -/
def length_squared (a : V3 A) : A := dot a a

/-- mathutils `Vector.normalized()`: divide by the Euclidean length,
which is the square root of the squared length. -/
def normalized (sq : A → A) (a : V3 A) : V3 A :=
  a.divScalar (sq a.length_squared)

/-- All three components are non-negative. -/
def Nonneg (a : V3 A) : Prop := 0 ≤ a.x ∧ 0 ≤ a.y ∧ 0 ≤ a.z

instance (a : V3 A) : Decidable a.Nonneg := by
  unfold Nonneg
  infer_instance

end V3

/-- Per-object shading parameters (`simpleRT_material`); `diffuse_color`
and `specular_color` are the RGB parts (`.xyz`) of the stored colors. -/
structure Material (A : Type) where
  diffuse_color : V3 A
  specular_color : V3 A
  specular_hardness : ℕ
  mirror_reflectivity : A
  use_fresnel : Bool
  ior : A
  transmission : A
deriving DecidableEq, Repr

/-- A point light (`simpleRT_light` data plus the object's location). -/
structure Light (A : Type) where
  location : V3 A
  color : V3 A
  energy : A
deriving DecidableEq, Repr

/-- The part of a successful `ray_cast` result the tracer consumes:
hit location, face normal, and the hit object's material. -/
structure Hit (A : Type) where
  loc : V3 A
  norm : V3 A
  mat : Material A
deriving DecidableEq, Repr

/-- A scene object, as seen by `RT_render_scene`: either a light
(`o.type == LIGHT`) or other geometry. -/
inductive SceneObj (A : Type) where
  | light (l : Light A)
  | geom
deriving DecidableEq

/-- The scene: the intersection oracle (Blender's `Scene.ray_cast`,
returning `none` exactly when `has_hit` is false), the ambient color,
the object list, and the active camera's parameters.  `camera_rot` is
the rotation by the camera's Euler orientation (`Vector.rotate`),
supplied by the host math library. -/
structure Scene (A : Type) where
  ray_cast : V3 A → V3 A → Option (Hit A)
  ambient_color : V3 A
  objects : List (SceneObj A)
  camera_location : V3 A
  camera_rot : V3 A → V3 A
  lens : A
  sensor_width : A

/-- `eps = 1e-3`, the self-occlusion offset for secondary rays. -/
def eps : A := 1 / 1000

/-- Normal orientation fix (lines 93-96): flip the normal when it faces
with the ray, and record `ray_inside_object`. -/
def orient_normal (hit_norm ray_dir : V3 A) : V3 A × Bool :=
  if V3.dot hit_norm ray_dir > 0 then (-hit_norm, true) else (hit_norm, false)

/-- `light_dir = (light.location - hit_loc).normalized()` (lines 132-135). -/
def light_dir_of (sq : A → A) (light : Light A) (hit_loc : V3 A) : V3 A :=
  V3.normalized sq (light.location - hit_loc)

/-- Shadow-ray origin `new_orig = hit_loc + eps * light_dir` (line 139). -/
def shadow_orig (sq : A → A) (light : Light A) (hit_loc : V3 A) : V3 A :=
  hit_loc + (eps : A) • light_dir_of sq light hit_loc

/-- Result of the shadow-ray cast (lines 142-144): whether anything at
all is hit when casting from `new_orig` toward `light_dir` (no
distance-to-light bound). -/
def shadow_hit (sq : A → A) (scene : Scene A) (light : Light A)
    (hit_loc : V3 A) : Bool :=
  (scene.ray_cast (shadow_orig sq light hit_loc)
    (light_dir_of sq light hit_loc)).isSome

/-- Un-normalized half vector `light_dir + (-ray_dir)` (line 197). -/
def half_vector_of (sq : A → A) (light : Light A) (hit_loc ray_dir : V3 A) :
    V3 A :=
  light_dir_of sq light hit_loc + (-ray_dir)

/-- One iteration of the light loop (lines 116-206).  The accumulator is
the running `color` together with the `no_light_hit` flag.  An occluded
light leaves the accumulator unchanged (`continue`); otherwise the
Blinn-Phong diffuse and specular components are added and the flag is
cleared. -/
def shade_one (sq : A → A) (scene : Scene A) (ray_dir hit_loc hit_norm : V3 A)
    (mat : Material A) (acc : V3 A × Bool) (light : Light A) : V3 A × Bool :=
  let light_color := light.energy • light.color
  let light_vec := light.location - hit_loc
  let light_dir := light_dir_of sq light hit_loc
  if shadow_hit sq scene light hit_loc then acc
  else
    let I_light := light_color.divScalar light_vec.length_squared
    let diffuse_component :=
      V3.dot light_dir hit_norm • (mat.diffuse_color * I_light)
    let hv := half_vector_of sq light hit_loc ray_dir
    let half_vector := hv.divScalar (sq hv.length_squared)
    let specular_component :=
      (V3.dot hit_norm half_vector ^ mat.specular_hardness) •
        (mat.specular_color * I_light)
    (acc.1 + diffuse_component + specular_component, false)

/-- The whole light loop: fold `shade_one` over the lights starting from
color `np.zeros(3)` and `no_light_hit = True`. -/
def shade_lights (sq : A → A) (scene : Scene A)
    (ray_dir hit_loc hit_norm : V3 A) (mat : Material A)
    (lights : List (Light A)) : V3 A × Bool :=
  lights.foldl (shade_one sq scene ray_dir hit_loc hit_norm mat) (0, true)

/-- Schlick approximation (lines 237-241). -/
def fresnel_reflectivity (mat : Material A) (ray_dir hit_norm : V3 A) : A :=
  let R_0 := ((1 - mat.ior) / (1 + mat.ior)) ^ 2
  let theta := |V3.dot ray_dir hit_norm|
  R_0 + (1 - R_0) * (1 - theta) ^ 5

/-- Reflectivity `k_r` (lines 231-241): `mat.mirror_reflectivity`,
overridden by Schlick's approximation when `use_fresnel` is set. -/
def reflectivity_of (mat : Material A) (ray_dir hit_norm : V3 A) : A :=
  if mat.use_fresnel then fresnel_reflectivity mat ray_dir hit_norm
  else mat.mirror_reflectivity

/-- Mirror direction `D_reflect = D - 2 (D dot N) N` (line 257). -/
def D_reflect_of (ray_dir hit_norm : V3 A) : V3 A :=
  ray_dir - (2 * V3.dot ray_dir hit_norm) • hit_norm

/-- Refractive index selection (line 283):
`(n1, n2) = (mat.ior, 1) if ray_inside_object else (1, mat.ior)`. -/
def refr_pair (inside : Bool) (ior : A) : A × A :=
  if inside then (ior, 1) else (1, ior)

/-- `RT_trace_ray` (lines 54-296): cast the ray via the oracle; black on
a miss; otherwise orient the normal, run the light loop, fall back to
the ambient term when no light contributed, and at positive depth add
the reflection contribution and, for transmissive materials outside
total internal reflection, the transmission contribution, each from a
recursive trace at `depth - 1`. -/
def RT_trace_ray (sq : A → A) (scene : Scene A) (ray_orig ray_dir : V3 A)
    (lights : List (Light A)) (depth : ℕ) : V3 A :=
  match scene.ray_cast ray_orig ray_dir with
  | none => 0
  | some hit =>
    let forward := orient_normal hit.norm ray_dir
    let hit_norm := forward.1
    let ray_inside_object := forward.2
    let ambient_color := scene.ambient_color
    let mat := hit.mat
    let p := shade_lights sq scene ray_dir hit.loc hit_norm mat lights
    if p.2 then p.1 + mat.diffuse_color * ambient_color
    else
      let reflectivity := reflectivity_of mat ray_dir hit_norm
      match depth with
      | 0 => p.1
      | d + 1 =>
        let D_reflect := D_reflect_of ray_dir hit_norm
        let reflect_color :=
          RT_trace_ray sq scene (hit.loc + (eps : A) • D_reflect) D_reflect lights d
        let color := p.1 + reflectivity • reflect_color
        if mat.transmission > 0 then
          let nn := refr_pair ray_inside_object mat.ior
          let n1_over_n2 := nn.1 / nn.2
          let cos_theta_i := -(V3.dot hit_norm ray_dir)
          let cos_theta_t2 := 1 - n1_over_n2 ^ 2 * (1 - cos_theta_i ^ 2)
          if cos_theta_t2 ≥ 0 then
            let D_transmit :=
              n1_over_n2 • ray_dir +
                (n1_over_n2 * cos_theta_i - sq cos_theta_t2) • hit_norm
            let transmit_color :=
              RT_trace_ray sq scene (hit.loc + (eps : A) • D_transmit) D_transmit
                lights d
            color + ((1 - reflectivity) * mat.transmission) • transmit_color
          else color
        else color

/-- Direct lighting only: the value of the tracer with every secondary
(reflection/transmission) contribution absent — on a hit, the light
loop's color, plus the ambient fallback when no light contributed. -/
def RT_direct_color (sq : A → A) (scene : Scene A) (ray_orig ray_dir : V3 A)
    (lights : List (Light A)) : V3 A :=
  match scene.ray_cast ray_orig ray_dir with
  | none => 0
  | some hit =>
    let forward := orient_normal hit.norm ray_dir
    let hit_norm := forward.1
    let mat := hit.mat
    let p := shade_lights sq scene ray_dir hit.loc hit_norm mat lights
    if p.2 then p.1 + mat.diffuse_color * scene.ambient_color
    else p.1

/-- The transmission contribution added at depth `d + 1` (lines
282-290), packaged as a standalone function of the same data: zero for
non-transmissive materials and under total internal reflection
(`cos_theta_t2 < 0`), otherwise `(1 - k_r) * transmission` times the
recursive trace along `D_transmit`. -/
def transmission_contrib (sq : A → A) (scene : Scene A)
    (ray_dir hit_loc hit_norm : V3 A) (mat : Material A)
    (lights : List (Light A)) (ray_inside_object : Bool)
    (reflectivity : A) (d : ℕ) : V3 A :=
  if mat.transmission > 0 then
    let nn := refr_pair ray_inside_object mat.ior
    let n1_over_n2 := nn.1 / nn.2
    let cos_theta_i := -(V3.dot hit_norm ray_dir)
    let cos_theta_t2 := 1 - n1_over_n2 ^ 2 * (1 - cos_theta_i ^ 2)
    if cos_theta_t2 ≥ 0 then
      let D_transmit :=
        n1_over_n2 • ray_dir +
          (n1_over_n2 * cos_theta_i - sq cos_theta_t2) • hit_norm
      ((1 - reflectivity) * mat.transmission) •
        RT_trace_ray sq scene (hit_loc + (eps : A) • D_transmit) D_transmit lights d
    else 0
  else 0

/-- The lights of the scene (line 324): the objects whose type is
`LIGHT`. -/
def scene_lights (scene : Scene A) : List (Light A) :=
  scene.objects.filterMap fun o =>
    match o with
    | .light l => some l
    | .geom => none

/-- The frame buffer: `height x width x 4` floats, modelled as a total
function from (row, column, channel) indices. -/
def Buf (A : Type) : Type := ℕ → ℕ → ℕ → A

/-- The per-pixel buffer update (lines 346-351):
`buf[y, x, 0:3] = color` followed by `buf[y, x, 3] = 1`.  Channels
other than 0-3 and every other pixel are untouched. -/
def write_pixel (buf : Buf A) (y x : ℕ) (c : V3 A) : Buf A :=
  fun y2 x2 ch =>
    if y2 = y ∧ x2 = x then
      if ch = 0 then c.x
      else if ch = 1 then c.y
      else if ch = 2 then c.z
      else if ch = 3 then 1
      else buf y2 x2 ch
    else buf y2 x2 ch

/-- The value `write_pixel` stores into channel `ch` (0 to 3) of the
written pixel: the three color components followed by alpha 1. -/
def pix_val (c : V3 A) (ch : ℕ) : A :=
  if ch = 0 then c.x else if ch = 1 then c.y else if ch = 2 then c.z else 1

/-- The primary-ray direction for pixel `(x, y)` (lines 331-344):
screen-space coordinates from the pixel indices, the camera-space
direction `(screen_x, screen_y, -focal_length)`, rotated by the camera
orientation, then normalized.  `focal_length = lens / sensor_width` and
`aspect = height / width`. -/
def ray_dir_for (sq : A → A) (scene : Scene A) (width height y x : ℕ) :
    V3 A :=
  let focal_length := scene.lens / scene.sensor_width
  let aspect := (height : A) / (width : A)
  let screen_y := (((y : A) - (height : A) / 2) / (height : A)) * aspect
  let screen_x := ((x : A) - (width : A) / 2) / (width : A)
  V3.normalized sq
    (scene.camera_rot (V3.mk screen_x screen_y (-focal_length)))

/-- Body of the inner pixel loop (lines 340-351): trace the primary
ray from the camera location and write the color and alpha into the
buffer. -/
def render_pixel (sq : A → A) (scene : Scene A) (width height depth y x : ℕ)
    (buf : Buf A) : Buf A :=
  write_pixel buf y x
    (RT_trace_ray sq scene scene.camera_location
      (ray_dir_for sq scene width height y x) (scene_lights scene) depth)

/-- One row of the pixel loop: `for x in range(width)`. -/
def render_row (sq : A → A) (scene : Scene A) (width height depth y : ℕ)
    (buf : Buf A) : Buf A :=
  (List.range width).foldl
    (fun b xx => render_pixel sq scene width height depth y xx b) buf

/-- `RT_render_scene` (lines 304-353): the row loop
`for y in range(height)` over `render_row`.  The per-row `yield` is a
progress checkpoint for the host and does not affect the buffer. -/
def RT_render_scene (sq : A → A) (scene : Scene A) (width height depth : ℕ)
    (buf : Buf A) : Buf A :=
  (List.range height).foldl
    (fun b yy => render_row sq scene width height depth yy b) buf

/-!  Concrete rational test fixtures used by the witnesses below. -/

/-- A reflective, fully transmissive test material. -/
def mat1 : Material ℚ :=
  { diffuse_color := ⟨1, 1, 1⟩
    specular_color := ⟨1, 1, 1⟩
    specular_hardness := 1
    mirror_reflectivity := 1 / 2
    use_fresnel := false
    ior := 3 / 2
    transmission := 1 }

/-- A purely diffuse test material. -/
def mat2 : Material ℚ :=
  { diffuse_color := ⟨1, 1, 1⟩
    specular_color := ⟨0, 0, 0⟩
    specular_hardness := 1
    mirror_reflectivity := 0
    use_fresnel := false
    ior := 1
    transmission := 0 }

/-- A hit on a horizontal surface at the origin with upward normal. -/
def hit1 : Hit ℚ := ⟨⟨0, 0, 0⟩, ⟨0, 0, 1⟩, mat1⟩

/-- The same hit with the diffuse-only material. -/
def hit2 : Hit ℚ := ⟨⟨0, 0, 0⟩, ⟨0, 0, 1⟩, mat2⟩

/-- A light one unit above the test surface. -/
def light1 : Light ℚ := ⟨⟨0, 0, 1⟩, ⟨1, 1, 1⟩, 1⟩

/-- A light one unit below the test surface (behind it, relative to the
oriented normal). -/
def light2 : Light ℚ := ⟨⟨0, 0, -1⟩, ⟨1, 1, 1⟩, 1⟩

/-- A scene whose oracle hits only for the primary ray cast from
(0,0,1) straight down; everything else (shadow and secondary rays)
escapes. -/
def qScene1 : Scene ℚ :=
  { ray_cast := fun o d =>
      if o = ⟨0, 0, 1⟩ ∧ d = ⟨0, 0, -1⟩ then some hit1 else none
    ambient_color := ⟨1 / 10, 1 / 10, 1 / 10⟩
    objects := []
    camera_location := ⟨0, 0, 1⟩
    camera_rot := id
    lens := 1
    sensor_width := 1 }

/-- A scene whose oracle hits only for the primary ray from (0,0,1) in
direction (1,0,0), landing on the diffuse surface; shadow rays escape,
so `light2`, which lies behind the surface, still contributes. -/
def qScene2 : Scene ℚ :=
  { ray_cast := fun o d =>
      if o = ⟨0, 0, 1⟩ ∧ d = ⟨1, 0, 0⟩ then some hit2 else none
    ambient_color := ⟨0, 0, 0⟩
    objects := []
    camera_location := ⟨0, 0, 1⟩
    camera_rot := id
    lens := 1
    sensor_width := 1 }

/-- A scene whose oracle always reports a hit, so every shadow ray is
occluded. -/
def qScene3 : Scene ℚ :=
  { ray_cast := fun _ _ => some hit1
    ambient_color := ⟨1 / 10, 1 / 10, 1 / 10⟩
    objects := []
    camera_location := ⟨0, 0, 1⟩
    camera_rot := id
    lens := 1
    sensor_width := 1 }

/-- A scene whose oracle never reports a hit. -/
def qSceneNone : Scene ℚ :=
  { ray_cast := fun _ _ => none
    ambient_color := ⟨0, 0, 0⟩
    objects := []
    camera_location := ⟨0, 0, 0⟩
    camera_rot := id
    lens := 1
    sensor_width := 1 }

/-!  Component lemmas for the vector algebra. -/

namespace V3

@[simp] theorem add_x (a b : V3 A) : (a + b).x = a.x + b.x := rfl
@[simp] theorem add_y (a b : V3 A) : (a + b).y = a.y + b.y := rfl
@[simp] theorem add_z (a b : V3 A) : (a + b).z = a.z + b.z := rfl
@[simp] theorem neg_x (a : V3 A) : (-a).x = -a.x := rfl
@[simp] theorem neg_y (a : V3 A) : (-a).y = -a.y := rfl
@[simp] theorem neg_z (a : V3 A) : (-a).z = -a.z := rfl
@[simp] theorem sub_x (a b : V3 A) : (a - b).x = a.x - b.x := rfl
@[simp] theorem sub_y (a b : V3 A) : (a - b).y = a.y - b.y := rfl
@[simp] theorem sub_z (a b : V3 A) : (a - b).z = a.z - b.z := rfl
@[simp] theorem mul_x (a b : V3 A) : (a * b).x = a.x * b.x := rfl
@[simp] theorem mul_y (a b : V3 A) : (a * b).y = a.y * b.y := rfl
@[simp] theorem mul_z (a b : V3 A) : (a * b).z = a.z * b.z := rfl
@[simp] theorem smul_x (t : A) (a : V3 A) : (t • a).x = t * a.x := rfl
@[simp] theorem smul_y (t : A) (a : V3 A) : (t • a).y = t * a.y := rfl
@[simp] theorem smul_z (t : A) (a : V3 A) : (t • a).z = t * a.z := rfl
@[simp] theorem zero_x : (0 : V3 A).x = 0 := rfl
@[simp] theorem zero_y : (0 : V3 A).y = 0 := rfl
@[simp] theorem zero_z : (0 : V3 A).z = 0 := rfl
@[simp] theorem divScalar_x (a : V3 A) (t : A) : (a.divScalar t).x = a.x / t := rfl
@[simp] theorem divScalar_y (a : V3 A) (t : A) : (a.divScalar t).y = a.y / t := rfl
@[simp] theorem divScalar_z (a : V3 A) (t : A) : (a.divScalar t).z = a.z / t := rfl

@[simp] theorem mk_add_mk (a b c d e f : A) :
    (⟨a, b, c⟩ : V3 A) + ⟨d, e, f⟩ = ⟨a + d, b + e, c + f⟩ := rfl
@[simp] theorem mk_sub_mk (a b c d e f : A) :
    (⟨a, b, c⟩ : V3 A) - ⟨d, e, f⟩ = ⟨a - d, b - e, c - f⟩ := rfl
@[simp] theorem mk_mul_mk (a b c d e f : A) :
    (⟨a, b, c⟩ : V3 A) * ⟨d, e, f⟩ = ⟨a * d, b * e, c * f⟩ := rfl
@[simp] theorem neg_mk (a b c : A) :
    -(⟨a, b, c⟩ : V3 A) = ⟨-a, -b, -c⟩ := rfl
@[simp] theorem smul_mk (t a b c : A) :
    t • (⟨a, b, c⟩ : V3 A) = ⟨t * a, t * b, t * c⟩ := rfl
@[simp] theorem zero_eq_mk : (0 : V3 A) = ⟨0, 0, 0⟩ := rfl

omit [LinearOrderedField A] in
theorem ext_comp {a b : V3 A} (hx : a.x = b.x) (hy : a.y = b.y)
    (hz : a.z = b.z) : a = b := by
  cases a
  cases b
  simp_all

@[simp] theorem smul_zero_v (t : A) : t • (0 : V3 A) = 0 := by
  apply ext_comp <;> simp

@[simp] theorem mk_zero_add (a : V3 A) : (⟨0, 0, 0⟩ : V3 A) + a = a := by
  apply ext_comp <;> simp

@[simp] theorem add_mk_zero (a : V3 A) : a + (⟨0, 0, 0⟩ : V3 A) = a := by
  apply ext_comp <;> simp

@[simp] theorem smul_mk_zero (t : A) :
    t • (⟨0, 0, 0⟩ : V3 A) = (⟨0, 0, 0⟩ : V3 A) := by
  apply ext_comp <;> simp

@[simp] theorem zero_add_v (a : V3 A) : (0 : V3 A) + a = a := by
  apply ext_comp <;> simp

@[simp] theorem add_zero_v (a : V3 A) : a + (0 : V3 A) = a := by
  apply ext_comp <;> simp

theorem dot_neg_left (a b : V3 A) : dot (-a) b = -dot a b := by
  simp [dot]
  ring

theorem length_squared_nonneg (a : V3 A) : 0 ≤ a.length_squared := by
  have hx := mul_self_nonneg a.x
  have hy := mul_self_nonneg a.y
  have hz := mul_self_nonneg a.z
  unfold length_squared dot
  linarith

theorem length_squared_eq_zero_iff (a : V3 A) :
    a.length_squared = 0 ↔ a = 0 := by
  constructor
  · intro h
    have hx := mul_self_nonneg a.x
    have hy := mul_self_nonneg a.y
    have hz := mul_self_nonneg a.z
    unfold length_squared dot at h
    apply ext_comp
    · have : a.x * a.x = 0 := by linarith
      simpa [mul_self_eq_zero] using this
    · have : a.y * a.y = 0 := by linarith
      simpa [mul_self_eq_zero] using this
    · have : a.z * a.z = 0 := by linarith
      simpa [mul_self_eq_zero] using this
  · intro h
    subst h
    unfold length_squared dot
    simp

end V3

/-!  Helper lemmas about the light loop. -/

/-- Folding the light loop over lights whose shadow rays are all
occluded leaves the accumulator unchanged. -/
theorem foldl_shade_one_all_shadowed (sq : A → A) (scene : Scene A)
    (ray_dir hit_loc hit_norm : V3 A) (mat : Material A)
    (lights : List (Light A)) (acc : V3 A × Bool)
    (h : ∀ l ∈ lights, shadow_hit sq scene l hit_loc = true) :
    lights.foldl (shade_one sq scene ray_dir hit_loc hit_norm mat) acc =
      acc := by
  induction lights generalizing acc with
  | nil => rfl
  | cons hd tl ih =>
    have h1 : shadow_hit sq scene hd hit_loc = true :=
      h hd (List.mem_cons_self hd tl)
    have hstep : shade_one sq scene ray_dir hit_loc hit_norm mat acc hd =
        acc := by
      simp [shade_one, h1]
    simp only [List.foldl_cons, hstep]
    exact ih acc (fun l hl => h l (List.mem_cons_of_mem hd hl))

/-- With every light's shadow ray occluded, the light loop returns
black and leaves the no-light-hit flag set. -/
theorem shade_lights_all_shadowed (sq : A → A) (scene : Scene A)
    (ray_dir hit_loc hit_norm : V3 A) (mat : Material A)
    (lights : List (Light A))
    (h : ∀ l ∈ lights, shadow_hit sq scene l hit_loc = true) :
    shade_lights sq scene ray_dir hit_loc hit_norm mat lights =
      (0, true) := by
  unfold shade_lights
  exact foldl_shade_one_all_shadowed sq scene ray_dir hit_loc hit_norm mat
    lights (0, true) h

/-!  Claims. -/

/-- Claim C1: for every ray (origin, direction) and every depth, if the
intersection oracle reports no hit for the primary ray, RT_trace_ray
returns exactly the black color (0,0,0). -/
theorem C1_no_hit_black (sq : A → A) (scene : Scene A)
    (ray_orig ray_dir : V3 A) (lights : List (Light A)) (depth : ℕ)
    (h : scene.ray_cast ray_orig ray_dir = none) :
    RT_trace_ray sq scene ray_orig ray_dir lights depth = 0 := by
  unfold RT_trace_ray
  rw [h]

/-- Witness for C1: a concrete scene whose oracle always misses. -/
theorem C1_no_hit_black_witness :
    qSceneNone.ray_cast ⟨0, 0, 0⟩ ⟨0, 0, 1⟩ = none ∧
    RT_trace_ray id qSceneNone ⟨0, 0, 0⟩ ⟨0, 0, 1⟩ [light1] 5 = 0 :=
  ⟨rfl, C1_no_hit_black id qSceneNone ⟨0, 0, 0⟩ ⟨0, 0, 1⟩ [light1] 5 rfl⟩

/-- Claim C3: if the ray hits and no light contributes (every light's
shadow ray hits something, which subsumes the empty light list),
RT_trace_ray returns exactly diffuse_color * ambient_color, regardless
of the recursion depth: no reflectivity, reflection or transmission
contribution enters the result even at positive depth. -/
theorem C3_ambient_fallback (sq : A → A) (scene : Scene A)
    (ray_orig ray_dir : V3 A) (lights : List (Light A)) (hit : Hit A)
    (hcast : scene.ray_cast ray_orig ray_dir = some hit)
    (hall : ∀ l ∈ lights, shadow_hit sq scene l hit.loc = true)
    (depth : ℕ) :
    RT_trace_ray sq scene ray_orig ray_dir lights depth =
      hit.mat.diffuse_color * scene.ambient_color := by
  have hsh := shade_lights_all_shadowed sq scene ray_dir hit.loc
    (orient_normal hit.norm ray_dir).1 hit.mat lights hall
  unfold RT_trace_ray
  rw [hcast]
  simp [hsh]

/-- Witness for C3: a concrete scene whose oracle always hits, so the
single light is fully occluded; at depth 2 the result is still exactly
the ambient term. -/
theorem C3_ambient_fallback_witness :
    qScene3.ray_cast ⟨0, 0, 1⟩ ⟨0, 0, -1⟩ = some hit1 ∧
    (∀ l ∈ [light1], shadow_hit id qScene3 l hit1.loc = true) ∧
    RT_trace_ray id qScene3 ⟨0, 0, 1⟩ ⟨0, 0, -1⟩ [light1] 2 =
      hit1.mat.diffuse_color * qScene3.ambient_color := by
  have hc : qScene3.ray_cast ⟨0, 0, 1⟩ ⟨0, 0, -1⟩ = some hit1 := rfl
  have ha : ∀ l ∈ [light1], shadow_hit id qScene3 l hit1.loc = true := by
    intro l hl
    rw [List.mem_singleton] at hl
    subst hl
    rfl
  exact ⟨hc, ha,
    C3_ambient_fallback id qScene3 ⟨0, 0, 1⟩ ⟨0, 0, -1⟩ [light1] hit1 hc ha 2⟩

/-- Claim C4: RT_trace_ray is total by construction (structural
recursion on the depth, both secondary branches recursing at depth - 1),
and at depth 0 no reflection or transmission ray is generated: the
output equals the direct-lighting-only value RT_direct_color. -/
theorem C4_depth_zero_direct (sq : A → A) (scene : Scene A)
    (ray_orig ray_dir : V3 A) (lights : List (Light A)) :
    RT_trace_ray sq scene ray_orig ray_dir lights 0 =
      RT_direct_color sq scene ray_orig ray_dir lights := by
  unfold RT_trace_ray RT_direct_color
  cases scene.ray_cast ray_orig ray_dir <;> rfl

/-- Claim C5: a light whose shadow ray (origin hit_loc + eps *
light_dir, direction light_dir, no distance bound) hits anything
contributes exactly zero in its loop iteration: the accumulator passes
through unchanged. -/
theorem C5_shadow_occlusion (sq : A → A) (scene : Scene A)
    (ray_dir hit_loc hit_norm : V3 A) (mat : Material A)
    (acc : V3 A × Bool) (light : Light A)
    (h : shadow_hit sq scene light hit_loc = true) :
    shade_one sq scene ray_dir hit_loc hit_norm mat acc light = acc ∧
    shadow_orig sq light hit_loc =
      hit_loc + (eps : A) • light_dir_of sq light hit_loc := by
  refine ⟨?_, rfl⟩
  simp [shade_one, h]

/-- Witness for C5: in the always-hit scene the shadow ray of `light1`
is occluded and the accumulator (here a nonzero color) is returned
unchanged. -/
theorem C5_shadow_occlusion_witness :
    shadow_hit id qScene3 light1 ⟨0, 0, 0⟩ = true ∧
    shade_one id qScene3 ⟨0, 0, -1⟩ ⟨0, 0, 0⟩ ⟨0, 0, 1⟩ mat1
      (⟨1, 2, 3⟩, false) light1 = (⟨1, 2, 3⟩, false) :=
  ⟨rfl,
    (C5_shadow_occlusion id qScene3 ⟨0, 0, -1⟩ ⟨0, 0, 0⟩ ⟨0, 0, 1⟩ mat1
      (⟨1, 2, 3⟩, false) light1 rfl).1⟩

/-- Claim C8: after the orientation fix the shading normal satisfies
dot(normal, direction) <= 0; the inside flag is set exactly when the
oracle's normal faced with the ray; and the flag selects the refraction
index pair (ior, 1) when inside, (1, ior) otherwise. -/
theorem C8_normal_orientation (hit_norm ray_dir : V3 A) (i : A) :
    V3.dot (orient_normal hit_norm ray_dir).1 ray_dir ≤ 0 ∧
    ((orient_normal hit_norm ray_dir).2 = true ↔
      0 < V3.dot hit_norm ray_dir) ∧
    refr_pair true i = (i, 1) ∧ refr_pair false i = (1, i) := by
  unfold orient_normal refr_pair
  by_cases h : V3.dot hit_norm ray_dir > 0
  · rw [if_pos h]
    refine ⟨?_, by simp [h], rfl, rfl⟩
    show V3.dot (-hit_norm) ray_dir ≤ 0
    rw [V3.dot_neg_left]
    linarith
  · rw [if_neg h]
    refine ⟨?_, by simp [h], rfl, rfl⟩
    show V3.dot hit_norm ray_dir ≤ 0
    exact not_lt.mp h

/-- Unfolding of the tracer at positive depth on a hit where at least
one light contributed: the direct color plus the reflection term plus
the transmission contribution. -/
theorem RT_trace_ray_succ (sq : A → A) (scene : Scene A)
    (ray_orig ray_dir : V3 A) (lights : List (Light A)) (hit : Hit A)
    (d : ℕ) (hcast : scene.ray_cast ray_orig ray_dir = some hit)
    (hlit : (shade_lights sq scene ray_dir hit.loc
      (orient_normal hit.norm ray_dir).1 hit.mat lights).2 = false) :
    RT_trace_ray sq scene ray_orig ray_dir lights (d + 1) =
      (shade_lights sq scene ray_dir hit.loc
        (orient_normal hit.norm ray_dir).1 hit.mat lights).1 +
      reflectivity_of hit.mat ray_dir (orient_normal hit.norm ray_dir).1 •
        RT_trace_ray sq scene
          (hit.loc + (eps : A) •
            D_reflect_of ray_dir (orient_normal hit.norm ray_dir).1)
          (D_reflect_of ray_dir (orient_normal hit.norm ray_dir).1) lights d +
      transmission_contrib sq scene ray_dir hit.loc
        (orient_normal hit.norm ray_dir).1 hit.mat lights
        (orient_normal hit.norm ray_dir).2
        (reflectivity_of hit.mat ray_dir (orient_normal hit.norm ray_dir).1)
        d := by
  conv_lhs => rw [RT_trace_ray.eq_def]
  rw [hcast]
  simp only [hlit, Bool.false_eq_true, if_false]
  simp only [transmission_contrib]
  split_ifs <;> simp

/-- Claim C6: at positive depth with at least one contributing light, a
reflection ray with direction D_reflect = direction - 2 dot(direction,
normal) normal is traced from hit_loc + eps * D_reflect at depth - 1,
and k_r times its color is added to the result, where k_r is
mirror_reflectivity by default, or Schlick's approximation
R0 + (1 - R0) (1 - |dot(direction, normal)|)^5 with
R0 = ((1 - ior) / (1 + ior))^2 when use_fresnel is set. -/
theorem C6_reflection (sq : A → A) (scene : Scene A)
    (ray_orig ray_dir : V3 A) (lights : List (Light A)) (hit : Hit A)
    (d : ℕ) (hcast : scene.ray_cast ray_orig ray_dir = some hit)
    (hlit : (shade_lights sq scene ray_dir hit.loc
      (orient_normal hit.norm ray_dir).1 hit.mat lights).2 = false) :
    RT_trace_ray sq scene ray_orig ray_dir lights (d + 1) =
      (shade_lights sq scene ray_dir hit.loc
        (orient_normal hit.norm ray_dir).1 hit.mat lights).1 +
      reflectivity_of hit.mat ray_dir (orient_normal hit.norm ray_dir).1 •
        RT_trace_ray sq scene
          (hit.loc + (eps : A) •
            D_reflect_of ray_dir (orient_normal hit.norm ray_dir).1)
          (D_reflect_of ray_dir (orient_normal hit.norm ray_dir).1) lights d +
      transmission_contrib sq scene ray_dir hit.loc
        (orient_normal hit.norm ray_dir).1 hit.mat lights
        (orient_normal hit.norm ray_dir).2
        (reflectivity_of hit.mat ray_dir (orient_normal hit.norm ray_dir).1)
        d ∧
    D_reflect_of ray_dir (orient_normal hit.norm ray_dir).1 =
      ray_dir - (2 * V3.dot ray_dir (orient_normal hit.norm ray_dir).1) •
        (orient_normal hit.norm ray_dir).1 ∧
    reflectivity_of hit.mat ray_dir (orient_normal hit.norm ray_dir).1 =
      (if hit.mat.use_fresnel = true then
        ((1 - hit.mat.ior) / (1 + hit.mat.ior)) ^ 2 +
          (1 - ((1 - hit.mat.ior) / (1 + hit.mat.ior)) ^ 2) *
            (1 - |V3.dot ray_dir (orient_normal hit.norm ray_dir).1|) ^ 5
       else hit.mat.mirror_reflectivity) := by
  refine ⟨RT_trace_ray_succ sq scene ray_orig ray_dir lights hit d hcast hlit,
    rfl, ?_⟩
  unfold reflectivity_of fresnel_reflectivity
  rfl

/-- Witness for C6: the hit-once scene, one unoccluded light, depth 1. -/
theorem C6_reflection_witness :
    qScene1.ray_cast ⟨0, 0, 1⟩ ⟨0, 0, -1⟩ = some hit1 ∧
    (shade_lights id qScene1 ⟨0, 0, -1⟩ hit1.loc
      (orient_normal hit1.norm ⟨0, 0, -1⟩).1 hit1.mat [light1]).2 = false ∧
    RT_trace_ray id qScene1 ⟨0, 0, 1⟩ ⟨0, 0, -1⟩ [light1] (0 + 1) =
      (shade_lights id qScene1 ⟨0, 0, -1⟩ hit1.loc
        (orient_normal hit1.norm ⟨0, 0, -1⟩).1 hit1.mat [light1]).1 +
      reflectivity_of hit1.mat ⟨0, 0, -1⟩
          (orient_normal hit1.norm ⟨0, 0, -1⟩).1 •
        RT_trace_ray id qScene1
          (hit1.loc + (eps : ℚ) •
            D_reflect_of ⟨0, 0, -1⟩ (orient_normal hit1.norm ⟨0, 0, -1⟩).1)
          (D_reflect_of ⟨0, 0, -1⟩ (orient_normal hit1.norm ⟨0, 0, -1⟩).1)
          [light1] 0 +
      transmission_contrib id qScene1 ⟨0, 0, -1⟩ hit1.loc
        (orient_normal hit1.norm ⟨0, 0, -1⟩).1 hit1.mat [light1]
        (orient_normal hit1.norm ⟨0, 0, -1⟩).2
        (reflectivity_of hit1.mat ⟨0, 0, -1⟩
          (orient_normal hit1.norm ⟨0, 0, -1⟩).1) 0 := by
  have hc : qScene1.ray_cast ⟨0, 0, 1⟩ ⟨0, 0, -1⟩ = some hit1 := by
    norm_num [qScene1]
  have hl : (shade_lights id qScene1 ⟨0, 0, -1⟩ hit1.loc
      (orient_normal hit1.norm ⟨0, 0, -1⟩).1 hit1.mat [light1]).2 = false := by
    norm_num [shade_lights, shade_one, shadow_hit, shadow_orig, light_dir_of,
      half_vector_of, orient_normal, eps, V3.normalized, V3.length_squared,
      V3.dot, V3.divScalar, qScene1, hit1, mat1, light1]
  exact ⟨hc, hl,
    (C6_reflection id qScene1 ⟨0, 0, 1⟩ ⟨0, 0, -1⟩ [light1] hit1 0 hc hl).1⟩

/-- Claim C7: in the transmission branch (positive depth, contributing
light, transmission > 0), with (n1, n2) selected by the inside flag,
cos_i = -dot(normal, direction) and cos_t2 = 1 - (n1/n2)^2 (1 - cos_i^2):
if cos_t2 < 0 (total internal reflection) the transmission is silently
skipped and contributes exactly zero; otherwise the ray with direction
D_transmit = (n1/n2) direction + ((n1/n2) cos_i - sqrt(cos_t2)) normal
is traced at depth - 1 and its color, weighted by
(1 - k_r) * transmission, is added. -/
theorem C7_transmission (sq : A → A) (scene : Scene A)
    (ray_orig ray_dir : V3 A) (lights : List (Light A)) (hit : Hit A)
    (d : ℕ) (hcast : scene.ray_cast ray_orig ray_dir = some hit)
    (hlit : (shade_lights sq scene ray_dir hit.loc
      (orient_normal hit.norm ray_dir).1 hit.mat lights).2 = false)
    (htr : hit.mat.transmission > 0) :
    (1 - ((refr_pair (orient_normal hit.norm ray_dir).2 hit.mat.ior).1 /
          (refr_pair (orient_normal hit.norm ray_dir).2 hit.mat.ior).2) ^ 2 *
        (1 - (-(V3.dot (orient_normal hit.norm ray_dir).1 ray_dir)) ^ 2) < 0 →
      RT_trace_ray sq scene ray_orig ray_dir lights (d + 1) =
        (shade_lights sq scene ray_dir hit.loc
          (orient_normal hit.norm ray_dir).1 hit.mat lights).1 +
        reflectivity_of hit.mat ray_dir (orient_normal hit.norm ray_dir).1 •
          RT_trace_ray sq scene
            (hit.loc + (eps : A) •
              D_reflect_of ray_dir (orient_normal hit.norm ray_dir).1)
            (D_reflect_of ray_dir (orient_normal hit.norm ray_dir).1)
            lights d) ∧
    (0 ≤ 1 - ((refr_pair (orient_normal hit.norm ray_dir).2 hit.mat.ior).1 /
          (refr_pair (orient_normal hit.norm ray_dir).2 hit.mat.ior).2) ^ 2 *
        (1 - (-(V3.dot (orient_normal hit.norm ray_dir).1 ray_dir)) ^ 2) →
      RT_trace_ray sq scene ray_orig ray_dir lights (d + 1) =
        (shade_lights sq scene ray_dir hit.loc
          (orient_normal hit.norm ray_dir).1 hit.mat lights).1 +
        reflectivity_of hit.mat ray_dir (orient_normal hit.norm ray_dir).1 •
          RT_trace_ray sq scene
            (hit.loc + (eps : A) •
              D_reflect_of ray_dir (orient_normal hit.norm ray_dir).1)
            (D_reflect_of ray_dir (orient_normal hit.norm ray_dir).1)
            lights d +
        ((1 - reflectivity_of hit.mat ray_dir
            (orient_normal hit.norm ray_dir).1) * hit.mat.transmission) •
          RT_trace_ray sq scene
            (hit.loc + (eps : A) •
              (((refr_pair (orient_normal hit.norm ray_dir).2
                    hit.mat.ior).1 /
                  (refr_pair (orient_normal hit.norm ray_dir).2
                    hit.mat.ior).2) • ray_dir +
                (((refr_pair (orient_normal hit.norm ray_dir).2
                      hit.mat.ior).1 /
                    (refr_pair (orient_normal hit.norm ray_dir).2
                      hit.mat.ior).2) *
                    (-(V3.dot (orient_normal hit.norm ray_dir).1 ray_dir)) -
                  sq (1 - ((refr_pair (orient_normal hit.norm ray_dir).2
                        hit.mat.ior).1 /
                      (refr_pair (orient_normal hit.norm ray_dir).2
                        hit.mat.ior).2) ^ 2 *
                    (1 - (-(V3.dot (orient_normal hit.norm ray_dir).1
                      ray_dir)) ^ 2))) •
                  (orient_normal hit.norm ray_dir).1))
            (((refr_pair (orient_normal hit.norm ray_dir).2 hit.mat.ior).1 /
                (refr_pair (orient_normal hit.norm ray_dir).2 hit.mat.ior).2) •
                ray_dir +
              (((refr_pair (orient_normal hit.norm ray_dir).2
                    hit.mat.ior).1 /
                  (refr_pair (orient_normal hit.norm ray_dir).2
                    hit.mat.ior).2) *
                  (-(V3.dot (orient_normal hit.norm ray_dir).1 ray_dir)) -
                sq (1 - ((refr_pair (orient_normal hit.norm ray_dir).2
                      hit.mat.ior).1 /
                    (refr_pair (orient_normal hit.norm ray_dir).2
                      hit.mat.ior).2) ^ 2 *
                  (1 - (-(V3.dot (orient_normal hit.norm ray_dir).1
                    ray_dir)) ^ 2))) •
                (orient_normal hit.norm ray_dir).1)
            lights d) := by
  have base :=
    RT_trace_ray_succ sq scene ray_orig ray_dir lights hit d hcast hlit
  constructor
  · intro hneg
    rw [base]
    simp only [transmission_contrib]
    rw [if_pos htr, if_neg (not_le.mpr hneg)]
    simp
  · intro hpos
    rw [base]
    simp only [transmission_contrib]
    rw [if_pos htr, if_pos hpos]

/-- Witness for C7: the hit-once scene with the fully transmissive
material; cos_t2 evaluates to 1, so the refraction branch is taken. -/
theorem C7_transmission_witness :
    hit1.mat.transmission > 0 ∧
    0 ≤ 1 - ((refr_pair (orient_normal hit1.norm ⟨0, 0, -1⟩).2
          hit1.mat.ior).1 /
        (refr_pair (orient_normal hit1.norm ⟨0, 0, -1⟩).2
          hit1.mat.ior).2) ^ 2 *
      (1 - (-(V3.dot (orient_normal hit1.norm ⟨0, 0, -1⟩).1
        ⟨0, 0, -1⟩)) ^ 2) ∧
    RT_trace_ray id qScene1 ⟨0, 0, 1⟩ ⟨0, 0, -1⟩ [light1] (0 + 1) =
      (shade_lights id qScene1 ⟨0, 0, -1⟩ hit1.loc
        (orient_normal hit1.norm ⟨0, 0, -1⟩).1 hit1.mat [light1]).1 +
      reflectivity_of hit1.mat ⟨0, 0, -1⟩
          (orient_normal hit1.norm ⟨0, 0, -1⟩).1 •
        RT_trace_ray id qScene1
          (hit1.loc + (eps : ℚ) •
            D_reflect_of ⟨0, 0, -1⟩ (orient_normal hit1.norm ⟨0, 0, -1⟩).1)
          (D_reflect_of ⟨0, 0, -1⟩ (orient_normal hit1.norm ⟨0, 0, -1⟩).1)
          [light1] 0 +
      ((1 - reflectivity_of hit1.mat ⟨0, 0, -1⟩
          (orient_normal hit1.norm ⟨0, 0, -1⟩).1) * hit1.mat.transmission) •
        RT_trace_ray id qScene1
          (hit1.loc + (eps : ℚ) •
            (((refr_pair (orient_normal hit1.norm ⟨0, 0, -1⟩).2
                  hit1.mat.ior).1 /
                (refr_pair (orient_normal hit1.norm ⟨0, 0, -1⟩).2
                  hit1.mat.ior).2) • ⟨0, 0, -1⟩ +
              (((refr_pair (orient_normal hit1.norm ⟨0, 0, -1⟩).2
                    hit1.mat.ior).1 /
                  (refr_pair (orient_normal hit1.norm ⟨0, 0, -1⟩).2
                    hit1.mat.ior).2) *
                  (-(V3.dot (orient_normal hit1.norm ⟨0, 0, -1⟩).1
                    ⟨0, 0, -1⟩)) -
                id (1 - ((refr_pair (orient_normal hit1.norm ⟨0, 0, -1⟩).2
                      hit1.mat.ior).1 /
                    (refr_pair (orient_normal hit1.norm ⟨0, 0, -1⟩).2
                      hit1.mat.ior).2) ^ 2 *
                  (1 - (-(V3.dot (orient_normal hit1.norm ⟨0, 0, -1⟩).1
                    ⟨0, 0, -1⟩)) ^ 2))) •
                (orient_normal hit1.norm ⟨0, 0, -1⟩).1))
          (((refr_pair (orient_normal hit1.norm ⟨0, 0, -1⟩).2
                hit1.mat.ior).1 /
              (refr_pair (orient_normal hit1.norm ⟨0, 0, -1⟩).2
                hit1.mat.ior).2) • ⟨0, 0, -1⟩ +
            (((refr_pair (orient_normal hit1.norm ⟨0, 0, -1⟩).2
                  hit1.mat.ior).1 /
                (refr_pair (orient_normal hit1.norm ⟨0, 0, -1⟩).2
                  hit1.mat.ior).2) *
                (-(V3.dot (orient_normal hit1.norm ⟨0, 0, -1⟩).1
                  ⟨0, 0, -1⟩)) -
              id (1 - ((refr_pair (orient_normal hit1.norm ⟨0, 0, -1⟩).2
                    hit1.mat.ior).1 /
                  (refr_pair (orient_normal hit1.norm ⟨0, 0, -1⟩).2
                    hit1.mat.ior).2) ^ 2 *
                (1 - (-(V3.dot (orient_normal hit1.norm ⟨0, 0, -1⟩).1
                  ⟨0, 0, -1⟩)) ^ 2))) •
              (orient_normal hit1.norm ⟨0, 0, -1⟩).1)
          [light1] 0 := by
  have hc : qScene1.ray_cast ⟨0, 0, 1⟩ ⟨0, 0, -1⟩ = some hit1 := by
    norm_num [qScene1]
  have hl : (shade_lights id qScene1 ⟨0, 0, -1⟩ hit1.loc
      (orient_normal hit1.norm ⟨0, 0, -1⟩).1 hit1.mat [light1]).2 = false := by
    norm_num [shade_lights, shade_one, shadow_hit, shadow_orig, light_dir_of,
      half_vector_of, orient_normal, eps, V3.normalized, V3.length_squared,
      V3.dot, V3.divScalar, qScene1, hit1, mat1, light1]
  have htr : hit1.mat.transmission > 0 := by
    norm_num [hit1, mat1]
  have hct : 0 ≤ 1 - ((refr_pair (orient_normal hit1.norm ⟨0, 0, -1⟩).2
        hit1.mat.ior).1 /
      (refr_pair (orient_normal hit1.norm ⟨0, 0, -1⟩).2
        hit1.mat.ior).2) ^ 2 *
    (1 - (-(V3.dot (orient_normal hit1.norm ⟨0, 0, -1⟩).1
      ⟨0, 0, -1⟩)) ^ 2) := by
    norm_num [refr_pair, orient_normal, hit1, mat1, V3.dot]
  exact ⟨htr, hct,
    (C7_transmission id qScene1 ⟨0, 0, 1⟩ ⟨0, 0, -1⟩ [light1] hit1 0
      hc hl htr).2 hct⟩

/-!  Non-negativity infrastructure for claim C2. -/

theorem V3.Nonneg.add {a b : V3 A} (ha : a.Nonneg) (hb : b.Nonneg) :
    (a + b).Nonneg := by
  obtain ⟨hax, hay, haz⟩ := ha
  obtain ⟨hbx, hby, hbz⟩ := hb
  exact ⟨by simpa using add_nonneg hax hbx, by simpa using add_nonneg hay hby,
    by simpa using add_nonneg haz hbz⟩

theorem V3.Nonneg.mul {a b : V3 A} (ha : a.Nonneg) (hb : b.Nonneg) :
    (a * b).Nonneg := by
  obtain ⟨hax, hay, haz⟩ := ha
  obtain ⟨hbx, hby, hbz⟩ := hb
  exact ⟨by simpa using mul_nonneg hax hbx, by simpa using mul_nonneg hay hby,
    by simpa using mul_nonneg haz hbz⟩

theorem V3.Nonneg.smul {t : A} {a : V3 A} (ht : 0 ≤ t) (ha : a.Nonneg) :
    (t • a).Nonneg := by
  obtain ⟨hax, hay, haz⟩ := ha
  exact ⟨by simpa using mul_nonneg ht hax, by simpa using mul_nonneg ht hay,
    by simpa using mul_nonneg ht haz⟩

theorem V3.Nonneg.divScalar {a : V3 A} {t : A} (ha : a.Nonneg) (ht : 0 ≤ t) :
    (a.divScalar t).Nonneg := by
  obtain ⟨hax, hay, haz⟩ := ha
  exact ⟨div_nonneg hax ht, div_nonneg hay ht, div_nonneg haz ht⟩

theorem V3.nonneg_zero : (0 : V3 A).Nonneg := ⟨le_refl 0, le_refl 0, le_refl 0⟩

/-- One light-loop step preserves non-negativity of the accumulated
color, given non-negative light data, material colors, and the two dot
products used by the unoccluded branch. -/
theorem shade_one_nonneg (sq : A → A) (scene : Scene A)
    (ray_dir hit_loc hit_norm : V3 A) (mat : Material A)
    (acc : V3 A × Bool) (light : Light A)
    (hlc : light.color.Nonneg) (hle : 0 ≤ light.energy)
    (hmd : mat.diffuse_color.Nonneg) (hms : mat.specular_color.Nonneg)
    (hd : shadow_hit sq scene light hit_loc = false →
      0 ≤ V3.dot (light_dir_of sq light hit_loc) hit_norm ∧
      0 ≤ V3.dot hit_norm
          ((half_vector_of sq light hit_loc ray_dir).divScalar
            (sq (half_vector_of sq light hit_loc ray_dir).length_squared)) ^
          mat.specular_hardness)
    (hacc : acc.1.Nonneg) :
    (shade_one sq scene ray_dir hit_loc hit_norm mat acc light).1.Nonneg := by
  unfold shade_one
  cases hsh : shadow_hit sq scene light hit_loc with
  | true => simpa using hacc
  | false =>
    obtain ⟨hd1, hd2⟩ := hd hsh
    simp only [Bool.false_eq_true, if_false]
    have hIl : ((light.energy • light.color).divScalar
        (light.location - hit_loc).length_squared).Nonneg :=
      V3.Nonneg.divScalar (V3.Nonneg.smul hle hlc)
        (V3.length_squared_nonneg _)
    exact (hacc.add (V3.Nonneg.smul hd1 (hmd.mul hIl))).add
      (V3.Nonneg.smul hd2 (hms.mul hIl))

/-- The whole light loop preserves non-negativity of the accumulated
color. -/
theorem foldl_shade_one_nonneg (sq : A → A) (scene : Scene A)
    (ray_dir hit_loc hit_norm : V3 A) (mat : Material A)
    (lights : List (Light A)) (acc : V3 A × Bool)
    (hl : ∀ l ∈ lights, l.color.Nonneg ∧ 0 ≤ l.energy ∧
      (shadow_hit sq scene l hit_loc = false →
        0 ≤ V3.dot (light_dir_of sq l hit_loc) hit_norm ∧
        0 ≤ V3.dot hit_norm
            ((half_vector_of sq l hit_loc ray_dir).divScalar
              (sq (half_vector_of sq l hit_loc ray_dir).length_squared)) ^
            mat.specular_hardness))
    (hmd : mat.diffuse_color.Nonneg) (hms : mat.specular_color.Nonneg)
    (hacc : acc.1.Nonneg) :
    ((lights.foldl (shade_one sq scene ray_dir hit_loc hit_norm mat)
      acc).1).Nonneg := by
  induction lights generalizing acc with
  | nil => simpa using hacc
  | cons hd tl ih =>
    simp only [List.foldl_cons]
    obtain ⟨h1, h2, h3⟩ := hl hd (List.mem_cons_self hd tl)
    exact ih (shade_one sq scene ray_dir hit_loc hit_norm mat acc hd)
      (fun l hml => hl l (List.mem_cons_of_mem hd hml))
      (shade_one_nonneg sq scene ray_dir hit_loc hit_norm mat acc hd
        h1 h2 hmd hms h3 hacc)

/-- On a hit where the no-light-hit flag survives the light loop, the
tracer returns the loop color plus the ambient term, at any depth. -/
theorem RT_trace_ray_flag_true (sq : A → A) (scene : Scene A)
    (ray_orig ray_dir : V3 A) (lights : List (Light A)) (hit : Hit A)
    (depth : ℕ) (hcast : scene.ray_cast ray_orig ray_dir = some hit)
    (hb : (shade_lights sq scene ray_dir hit.loc
      (orient_normal hit.norm ray_dir).1 hit.mat lights).2 = true) :
    RT_trace_ray sq scene ray_orig ray_dir lights depth =
      (shade_lights sq scene ray_dir hit.loc
        (orient_normal hit.norm ray_dir).1 hit.mat lights).1 +
      hit.mat.diffuse_color * scene.ambient_color := by
  rw [RT_trace_ray.eq_def, hcast]
  simp [hb]

/-- On a hit where some light contributed, the tracer at depth 0
returns exactly the light loop's color. -/
theorem RT_trace_ray_zero_flag_false (sq : A → A) (scene : Scene A)
    (ray_orig ray_dir : V3 A) (lights : List (Light A)) (hit : Hit A)
    (hcast : scene.ray_cast ray_orig ray_dir = some hit)
    (hb : (shade_lights sq scene ray_dir hit.loc
      (orient_normal hit.norm ray_dir).1 hit.mat lights).2 = false) :
    RT_trace_ray sq scene ray_orig ray_dir lights 0 =
      (shade_lights sq scene ray_dir hit.loc
        (orient_normal hit.norm ray_dir).1 hit.mat lights).1 := by
  rw [RT_trace_ray.eq_def, hcast]
  simp [hb]

/-- Claim C2, corrected: the claim as stated fails (an unoccluded light
behind the surface contributes a negative diffuse term, see the
counterexample); non-negativity does hold whenever the scene data is
non-negative and, at every hit, every unoccluded light's diffuse dot
product and powered specular dot product are non-negative, with the
reflectivity within [0, 1] and the transmission non-negative. -/
theorem C2_nonneg_amended (sq : A → A) (scene : Scene A)
    (lights : List (Light A))
    (hamb : scene.ambient_color.Nonneg)
    (hlights : ∀ l ∈ lights, l.color.Nonneg ∧ 0 ≤ l.energy)
    (hmat : ∀ o rd (h2 : Hit A), scene.ray_cast o rd = some h2 →
      h2.mat.diffuse_color.Nonneg ∧ h2.mat.specular_color.Nonneg ∧
      0 ≤ h2.mat.transmission ∧
      0 ≤ reflectivity_of h2.mat rd (orient_normal h2.norm rd).1 ∧
      reflectivity_of h2.mat rd (orient_normal h2.norm rd).1 ≤ 1)
    (hdot : ∀ o rd (h2 : Hit A), scene.ray_cast o rd = some h2 →
      ∀ l ∈ lights, shadow_hit sq scene l h2.loc = false →
      0 ≤ V3.dot (light_dir_of sq l h2.loc) (orient_normal h2.norm rd).1 ∧
      0 ≤ V3.dot (orient_normal h2.norm rd).1
          ((half_vector_of sq l h2.loc rd).divScalar
            (sq (half_vector_of sq l h2.loc rd).length_squared)) ^
          h2.mat.specular_hardness)
    (depth : ℕ) (ray_orig ray_dir : V3 A) :
    (RT_trace_ray sq scene ray_orig ray_dir lights depth).Nonneg := by
  induction depth generalizing ray_orig ray_dir with
  | zero =>
    cases hc : scene.ray_cast ray_orig ray_dir with
    | none =>
      rw [RT_trace_ray.eq_def, hc]
      exact V3.nonneg_zero
    | some h2 =>
      obtain ⟨hmd, hms, htr0, hr0, hr1⟩ := hmat ray_orig ray_dir h2 hc
      have hp : ((shade_lights sq scene ray_dir h2.loc
          (orient_normal h2.norm ray_dir).1 h2.mat lights).1).Nonneg := by
        unfold shade_lights
        exact foldl_shade_one_nonneg sq scene ray_dir h2.loc
          (orient_normal h2.norm ray_dir).1 h2.mat lights (0, true)
          (fun l hml => ⟨(hlights l hml).1, (hlights l hml).2,
            fun hsh => hdot ray_orig ray_dir h2 hc l hml hsh⟩)
          hmd hms V3.nonneg_zero
      cases hb : (shade_lights sq scene ray_dir h2.loc
          (orient_normal h2.norm ray_dir).1 h2.mat lights).2 with
      | true =>
        rw [RT_trace_ray_flag_true sq scene ray_orig ray_dir lights h2 0
          hc hb]
        exact hp.add (hmd.mul hamb)
      | false =>
        rw [RT_trace_ray_zero_flag_false sq scene ray_orig ray_dir lights h2
          hc hb]
        exact hp
  | succ d ih =>
    cases hc : scene.ray_cast ray_orig ray_dir with
    | none =>
      rw [RT_trace_ray.eq_def, hc]
      exact V3.nonneg_zero
    | some h2 =>
      obtain ⟨hmd, hms, htr0, hr0, hr1⟩ := hmat ray_orig ray_dir h2 hc
      have hp : ((shade_lights sq scene ray_dir h2.loc
          (orient_normal h2.norm ray_dir).1 h2.mat lights).1).Nonneg := by
        unfold shade_lights
        exact foldl_shade_one_nonneg sq scene ray_dir h2.loc
          (orient_normal h2.norm ray_dir).1 h2.mat lights (0, true)
          (fun l hml => ⟨(hlights l hml).1, (hlights l hml).2,
            fun hsh => hdot ray_orig ray_dir h2 hc l hml hsh⟩)
          hmd hms V3.nonneg_zero
      cases hb : (shade_lights sq scene ray_dir h2.loc
          (orient_normal h2.norm ray_dir).1 h2.mat lights).2 with
      | true =>
        rw [RT_trace_ray_flag_true sq scene ray_orig ray_dir lights h2 (d + 1)
          hc hb]
        exact hp.add (hmd.mul hamb)
      | false =>
        rw [RT_trace_ray_succ sq scene ray_orig ray_dir lights h2 d hc hb]
        have hcontrib : (transmission_contrib sq scene ray_dir h2.loc
            (orient_normal h2.norm ray_dir).1 h2.mat lights
            (orient_normal h2.norm ray_dir).2
            (reflectivity_of h2.mat ray_dir (orient_normal h2.norm ray_dir).1)
            d).Nonneg := by
          simp only [transmission_contrib]
          split_ifs with ht hct
          · exact V3.Nonneg.smul (mul_nonneg (by linarith) htr0) (ih _ _)
          · exact V3.nonneg_zero
          · exact V3.nonneg_zero
        exact (hp.add (V3.Nonneg.smul hr0 (ih _ _))).add hcontrib

/-- Counterexample to claim C2 as stated: in `qScene2` the single light
lies behind the surface yet its shadow ray escapes, so the unclamped
diffuse dot product makes every returned component negative. -/
theorem C2_nonneg_counterexample :
    (qScene2.ray_cast ⟨0, 0, 1⟩ ⟨1, 0, 0⟩).isSome = true ∧
    (RT_trace_ray id qScene2 ⟨0, 0, 1⟩ ⟨1, 0, 0⟩ [light2] 0).x < 0 := by
  constructor
  · norm_num [qScene2]
  · have hval : RT_trace_ray id qScene2 ⟨0, 0, 1⟩ ⟨1, 0, 0⟩ [light2] 0 =
        ⟨-1, -1, -1⟩ := by
      norm_num [RT_trace_ray, qScene2, hit2, mat2, light2, shade_lights,
        shade_one, shadow_hit, shadow_orig, light_dir_of, half_vector_of,
        orient_normal, eps, V3.normalized, V3.length_squared, V3.dot,
        V3.divScalar]
    rw [hval]
    norm_num

/-- Witness for the amended C2 in the hit-once scene with its one
genuinely contributing light above the surface: the oracle hit forces
the material bounds (reflectivity 1/2, transmission 1) and the
unoccluded light's dot products (diffuse dot 1, specular dot 1/2) to be
checked for real, and the traced ray at depth 1 comes out
non-negative. -/
theorem C2_nonneg_amended_witness :
    (qScene1.ray_cast ⟨0, 0, 1⟩ ⟨0, 0, -1⟩).isSome = true ∧
    (RT_trace_ray id qScene1 ⟨0, 0, 1⟩ ⟨0, 0, -1⟩ [light1] 1).Nonneg := by
  constructor
  · norm_num [qScene1]
  · refine C2_nonneg_amended id qScene1 [light1] ?_ ?_ ?_ ?_ 1
      ⟨0, 0, 1⟩ ⟨0, 0, -1⟩
    · norm_num [qScene1, V3.Nonneg]
    · intro l hl
      rw [List.mem_singleton] at hl
      subst hl
      norm_num [light1, V3.Nonneg]
    · intro o rd h2 hcc
      simp only [qScene1] at hcc
      split_ifs at hcc with hcond
      · obtain ⟨ho, hrd⟩ := hcond
        subst hrd
        have hh2 : hit1 = h2 := Option.some.inj hcc
        subst hh2
        norm_num [hit1, mat1, reflectivity_of, fresnel_reflectivity,
          orient_normal, V3.dot, V3.Nonneg]
    · intro o rd h2 hcc l hl hsh
      simp only [qScene1] at hcc
      split_ifs at hcc with hcond
      · obtain ⟨ho, hrd⟩ := hcond
        subst hrd
        have hh2 : hit1 = h2 := Option.some.inj hcc
        subst hh2
        rw [List.mem_singleton] at hl
        subst hl
        norm_num [hit1, mat1, light1, orient_normal, light_dir_of,
          half_vector_of, V3.normalized, V3.length_squared, V3.dot,
          V3.divScalar, eps]

/-!  Frame-buffer lemmas for claim C9. -/

/-- Reading the just-written pixel returns the stored channel value. -/
theorem write_pixel_same (buf : Buf A) (y x : ℕ) (c : V3 A) (ch : ℕ)
    (hch : ch < 4) : write_pixel buf y x c y x ch = pix_val c ch := by
  unfold write_pixel pix_val
  simp only [and_self, if_true]
  interval_cases ch <;> simp

/-- Writing one pixel leaves every other pixel unchanged. -/
theorem write_pixel_other (buf : Buf A) (y x : ℕ) (c : V3 A)
    (y2 x2 ch : ℕ) (h : ¬(y2 = y ∧ x2 = x)) :
    write_pixel buf y x c y2 x2 ch = buf y2 x2 ch := by
  unfold write_pixel
  rw [if_neg h]

/-- The inner pixel loop never touches rows other than its own. -/
theorem foldl_render_pixel_ne_row (sq : A → A) (scene : Scene A)
    (width height depth y : ℕ) (xs : List ℕ) (buf : Buf A)
    (y2 x2 ch : ℕ) (hy : y2 ≠ y) :
    (xs.foldl (fun b xx => render_pixel sq scene width height depth y xx b)
      buf) y2 x2 ch = buf y2 x2 ch := by
  induction xs generalizing buf with
  | nil => rfl
  | cons hd tl ih =>
    simp only [List.foldl_cons]
    rw [ih (render_pixel sq scene width height depth y hd buf)]
    exact write_pixel_other buf y hd _ y2 x2 ch (fun hcon => hy hcon.1)

/-- Row-fold lookup: after folding the pixel loop over `range n`, every
column `x < n` of row `y` holds the traced pixel value. -/
theorem foldl_render_pixel_lookup (sq : A → A) (scene : Scene A)
    (width height depth y : ℕ) (n : ℕ) :
    ∀ (buf : Buf A) (x ch : ℕ), x < n → ch < 4 →
    ((List.range n).foldl
      (fun b xx => render_pixel sq scene width height depth y xx b) buf)
      y x ch =
      pix_val (RT_trace_ray sq scene scene.camera_location
        (ray_dir_for sq scene width height y x) (scene_lights scene) depth)
        ch := by
  induction n with
  | zero =>
    intro buf x ch hx hch
    exact absurd hx (Nat.not_lt_zero x)
  | succ n ih =>
    intro buf x ch hx hch
    rw [List.range_succ, List.foldl_append]
    simp only [List.foldl_cons, List.foldl_nil]
    by_cases hxn : x = n
    · subst hxn
      show write_pixel _ y x _ y x ch = _
      exact write_pixel_same _ y x _ ch hch
    · have hx2 : x < n := by omega
      have hother : render_pixel sq scene width height depth y n
          ((List.range n).foldl
            (fun b xx => render_pixel sq scene width height depth y xx b)
            buf) y x ch =
          ((List.range n).foldl
            (fun b xx => render_pixel sq scene width height depth y xx b)
            buf) y x ch :=
        write_pixel_other _ y n _ y x ch (fun hcon => hxn hcon.2)
      rw [hother]
      exact ih buf x ch hx2 hch

/-- The row loop never touches rows it does not visit. -/
theorem foldl_render_row_ne (sq : A → A) (scene : Scene A)
    (width height depth : ℕ) (ys : List ℕ) (buf : Buf A)
    (y2 x2 ch : ℕ) (hy : y2 ∉ ys) :
    (ys.foldl (fun b yy => render_row sq scene width height depth yy b) buf)
      y2 x2 ch = buf y2 x2 ch := by
  induction ys generalizing buf with
  | nil => rfl
  | cons hd tl ih =>
    simp only [List.foldl_cons]
    have hne : y2 ≠ hd := fun hcon => hy (hcon ▸ List.mem_cons_self hd tl)
    rw [ih (render_row sq scene width height depth hd buf)
      (fun hcon => hy (List.mem_cons_of_mem hd hcon))]
    exact foldl_render_pixel_ne_row sq scene width height depth hd
      (List.range width) buf y2 x2 ch hne

/-- Full-frame lookup: after folding the row loop over `range n`, every
pixel with `y < n`, `x < width` holds the traced value. -/
theorem foldl_render_row_lookup (sq : A → A) (scene : Scene A)
    (width height depth : ℕ) (n : ℕ) :
    ∀ (buf : Buf A) (y x ch : ℕ), y < n → x < width → ch < 4 →
    ((List.range n).foldl
      (fun b yy => render_row sq scene width height depth yy b) buf)
      y x ch =
      pix_val (RT_trace_ray sq scene scene.camera_location
        (ray_dir_for sq scene width height y x) (scene_lights scene) depth)
        ch := by
  induction n with
  | zero =>
    intro buf y x ch hy hx hch
    exact absurd hy (Nat.not_lt_zero y)
  | succ n ih =>
    intro buf y x ch hy hx hch
    rw [List.range_succ, List.foldl_append]
    simp only [List.foldl_cons, List.foldl_nil]
    by_cases hyn : y = n
    · subst hyn
      show ((List.range width).foldl
        (fun b xx => render_pixel sq scene width height depth y xx b) _)
          y x ch = _
      exact foldl_render_pixel_lookup sq scene width height depth y width _
        x ch hx hch
    · have hy2 : y < n := by omega
      have hother : render_row sq scene width height depth n
          ((List.range n).foldl
            (fun b yy => render_row sq scene width height depth yy b) buf)
          y x ch =
          ((List.range n).foldl
            (fun b yy => render_row sq scene width height depth yy b) buf)
          y x ch :=
        foldl_render_pixel_ne_row sq scene width height depth n
          (List.range width) _ y x ch hyn
      rw [hother]
      exact ih buf y x ch hy2 hx hch

/-- Claim C9: for every pixel (x, y) inside the frame, the renderer
writes into buf[y, x, 0..2] the color traced from the camera position
along the normalized, camera-rotated direction
(screen_x, screen_y, -focal_length) with
screen_x = (x - width/2) / width and
screen_y = ((y - height/2) / height) * (height / width), and writes
alpha 1 into buf[y, x, 3]. -/
theorem C9_render_pixels (sq : A → A) (scene : Scene A)
    (width height depth : ℕ) (buf : Buf A) (y x : ℕ)
    (hy : y < height) (hx : x < width) :
    RT_render_scene sq scene width height depth buf y x 0 =
      (RT_trace_ray sq scene scene.camera_location
        (V3.normalized sq (scene.camera_rot
          ⟨((x : A) - (width : A) / 2) / (width : A),
            (((y : A) - (height : A) / 2) / (height : A)) *
              ((height : A) / (width : A)),
            -(scene.lens / scene.sensor_width)⟩))
        (scene_lights scene) depth).x ∧
    RT_render_scene sq scene width height depth buf y x 1 =
      (RT_trace_ray sq scene scene.camera_location
        (V3.normalized sq (scene.camera_rot
          ⟨((x : A) - (width : A) / 2) / (width : A),
            (((y : A) - (height : A) / 2) / (height : A)) *
              ((height : A) / (width : A)),
            -(scene.lens / scene.sensor_width)⟩))
        (scene_lights scene) depth).y ∧
    RT_render_scene sq scene width height depth buf y x 2 =
      (RT_trace_ray sq scene scene.camera_location
        (V3.normalized sq (scene.camera_rot
          ⟨((x : A) - (width : A) / 2) / (width : A),
            (((y : A) - (height : A) / 2) / (height : A)) *
              ((height : A) / (width : A)),
            -(scene.lens / scene.sensor_width)⟩))
        (scene_lights scene) depth).z ∧
    RT_render_scene sq scene width height depth buf y x 3 = 1 := by
  have hlook := foldl_render_row_lookup sq scene width height depth height buf
  have hdir : ray_dir_for sq scene width height y x =
      V3.normalized sq (scene.camera_rot
        ⟨((x : A) - (width : A) / 2) / (width : A),
          (((y : A) - (height : A) / 2) / (height : A)) *
            ((height : A) / (width : A)),
          -(scene.lens / scene.sensor_width)⟩) := rfl
  refine ⟨?_, ?_, ?_, ?_⟩
  · rw [show RT_render_scene sq scene width height depth buf y x 0 =
      pix_val (RT_trace_ray sq scene scene.camera_location
        (ray_dir_for sq scene width height y x) (scene_lights scene) depth) 0
      from hlook y x 0 hy hx (by omega)]
    rw [hdir]
    rfl
  · rw [show RT_render_scene sq scene width height depth buf y x 1 =
      pix_val (RT_trace_ray sq scene scene.camera_location
        (ray_dir_for sq scene width height y x) (scene_lights scene) depth) 1
      from hlook y x 1 hy hx (by omega)]
    rw [hdir]
    rfl
  · rw [show RT_render_scene sq scene width height depth buf y x 2 =
      pix_val (RT_trace_ray sq scene scene.camera_location
        (ray_dir_for sq scene width height y x) (scene_lights scene) depth) 2
      from hlook y x 2 hy hx (by omega)]
    rw [hdir]
    rfl
  · rw [show RT_render_scene sq scene width height depth buf y x 3 =
      pix_val (RT_trace_ray sq scene scene.camera_location
        (ray_dir_for sq scene width height y x) (scene_lights scene) depth) 3
      from hlook y x 3 hy hx (by omega)]
    rfl

/-- Witness for C9: a 1x1 frame over the always-miss scene. -/
theorem C9_render_pixels_witness :
    RT_render_scene id qSceneNone 1 1 0 (fun _ _ _ => 0) 0 0 0 =
      (RT_trace_ray id qSceneNone qSceneNone.camera_location
        (V3.normalized id (qSceneNone.camera_rot
          ⟨((0 : ℚ) - (1 : ℚ) / 2) / (1 : ℚ),
            (((0 : ℚ) - (1 : ℚ) / 2) / (1 : ℚ)) * ((1 : ℚ) / (1 : ℚ)),
            -(qSceneNone.lens / qSceneNone.sensor_width)⟩))
        (scene_lights qSceneNone) 0).x ∧
    RT_render_scene id qSceneNone 1 1 0 (fun _ _ _ => 0) 0 0 1 =
      (RT_trace_ray id qSceneNone qSceneNone.camera_location
        (V3.normalized id (qSceneNone.camera_rot
          ⟨((0 : ℚ) - (1 : ℚ) / 2) / (1 : ℚ),
            (((0 : ℚ) - (1 : ℚ) / 2) / (1 : ℚ)) * ((1 : ℚ) / (1 : ℚ)),
            -(qSceneNone.lens / qSceneNone.sensor_width)⟩))
        (scene_lights qSceneNone) 0).y ∧
    RT_render_scene id qSceneNone 1 1 0 (fun _ _ _ => 0) 0 0 2 =
      (RT_trace_ray id qSceneNone qSceneNone.camera_location
        (V3.normalized id (qSceneNone.camera_rot
          ⟨((0 : ℚ) - (1 : ℚ) / 2) / (1 : ℚ),
            (((0 : ℚ) - (1 : ℚ) / 2) / (1 : ℚ)) * ((1 : ℚ) / (1 : ℚ)),
            -(qSceneNone.lens / qSceneNone.sensor_width)⟩))
        (scene_lights qSceneNone) 0).z ∧
    RT_render_scene id qSceneNone 1 1 0 (fun _ _ _ => 0) 0 0 3 = 1 := by
  have h := C9_render_pixels id qSceneNone 1 1 0 (fun _ _ _ => 0) 0 0
    Nat.one_pos Nat.one_pos
  simpa using h

/-!  Lemmas for claim C10. -/

theorem V3.sub_eq_zero_iff (a b : V3 A) : a - b = 0 ↔ a = b := by
  constructor
  · intro h
    apply V3.ext_comp
    · have := congrArg V3.x h
      simp at this
      linarith
    · have := congrArg V3.y h
      simp at this
      linarith
    · have := congrArg V3.z h
      simp at this
      linarith
  · intro h
    subst h
    apply V3.ext_comp <;> simp

theorem V3.add_neg_eq_zero_iff (a b : V3 A) : a + -b = 0 ↔ a = b := by
  constructor
  · intro h
    apply V3.ext_comp
    · have := congrArg V3.x h
      simp at this
      linarith
    · have := congrArg V3.y h
      simp at this
      linarith
    · have := congrArg V3.z h
      simp at this
      linarith
  · intro h
    subst h
    apply V3.ext_comp <;> simp

theorem V3.length_squared_pos (a : V3 A) (h : a ≠ 0) :
    0 < a.length_squared :=
  lt_of_le_of_ne (V3.length_squared_nonneg a)
    (fun hcon => h ((V3.length_squared_eq_zero_iff a).mp hcon.symm))

/-- Claim C10: the two per-light divisors.  If the light position is
distinct from the hit point, the inverse-square divisor
|light_vec|^2 is non-zero; if light_dir differs from ray_dir, the
half-vector norm divisor sqrt(|half|^2) is non-zero (for any square
root sending positives to non-zeros).  Conversely, on inputs violating
either precondition the respective divisor is exactly zero, i.e. the
code divides by zero (for any square root with sqrt(0) = 0). -/
theorem C10_division_guards (sq : A → A)
    (hsq_pos : ∀ t : A, 0 < t → sq t ≠ 0) (hsq_zero : sq 0 = 0)
    (light : Light A) (hit_loc ray_dir : V3 A) :
    (light.location ≠ hit_loc →
      (light.location - hit_loc).length_squared ≠ 0) ∧
    (light_dir_of sq light hit_loc ≠ ray_dir →
      sq ((half_vector_of sq light hit_loc ray_dir).length_squared) ≠ 0) ∧
    (light.location = hit_loc →
      (light.location - hit_loc).length_squared = 0) ∧
    (light_dir_of sq light hit_loc = ray_dir →
      sq ((half_vector_of sq light hit_loc ray_dir).length_squared) = 0) := by
  refine ⟨?_, ?_, ?_, ?_⟩
  · intro hne
    have hvec : light.location - hit_loc ≠ 0 :=
      fun hcon => hne ((V3.sub_eq_zero_iff light.location hit_loc).mp hcon)
    exact ne_of_gt (V3.length_squared_pos _ hvec)
  · intro hne
    have hvec : half_vector_of sq light hit_loc ray_dir ≠ 0 := by
      unfold half_vector_of
      exact fun hcon =>
        hne ((V3.add_neg_eq_zero_iff (light_dir_of sq light hit_loc)
          ray_dir).mp hcon)
    exact hsq_pos _ (V3.length_squared_pos _ hvec)
  · intro heq
    rw [heq]
    rw [(V3.sub_eq_zero_iff hit_loc hit_loc).mpr rfl]
    simp [V3.length_squared, V3.dot]
  · intro heq
    have hzero : half_vector_of sq light hit_loc ray_dir = 0 := by
      unfold half_vector_of
      exact (V3.add_neg_eq_zero_iff (light_dir_of sq light hit_loc)
        ray_dir).mpr heq
    rw [hzero]
    rw [show (0 : V3 A).length_squared = 0 from by
      simp [V3.length_squared, V3.dot]]
    exact hsq_zero

/-- Witness for C10: the concrete below-surface light with `id` as the
square root (which sends positives to positives and zero to zero). -/
theorem C10_division_guards_witness :
    (light2.location ≠ (⟨0, 0, 0⟩ : V3 ℚ) →
      (light2.location - ⟨0, 0, 0⟩).length_squared ≠ 0) ∧
    (light_dir_of id light2 ⟨0, 0, 0⟩ ≠ (⟨1, 0, 0⟩ : V3 ℚ) →
      id ((half_vector_of id light2 ⟨0, 0, 0⟩ ⟨1, 0, 0⟩).length_squared) ≠
        0) ∧
    (light2.location = (⟨0, 0, 0⟩ : V3 ℚ) →
      (light2.location - ⟨0, 0, 0⟩).length_squared = 0) ∧
    (light_dir_of id light2 ⟨0, 0, 0⟩ = (⟨1, 0, 0⟩ : V3 ℚ) →
      id ((half_vector_of id light2 ⟨0, 0, 0⟩ ⟨1, 0, 0⟩).length_squared) =
        0) :=
  C10_division_guards id (fun _ ht => ne_of_gt ht) rfl light2
    ⟨0, 0, 0⟩ ⟨1, 0, 0⟩

end SimpleRT
